import Mathlib

/-!
Shallow embedding of the runner-supervisor and streaming-inference-proxy
subsystem of `llm/llama.go` (package `llm`): the `newLlama` startup retry
loop, the `Encode`/`Decode`/`Embedding` HTTP codec methods and the
streaming `Predict` method.

Modelling conventions:
* The inference server's HTTP responses are parameters of the embedded
  functions (an `HttpResponse` is a status code and a body).  The
  functions under study only ever observe the delivered response, so an
  execution of the Go code corresponds to one choice of these parameters.
* `encoding/json` marshalling of request structs cannot fail for the
  types involved, so it is not modelled; unmarshalling of server
  responses is a parameter (`un… : String → Except String _`), standing
  for `json.Unmarshal` applied to the body.
* Go `float64`/`float32` millisecond fields are modelled as `Int`
  (the claims never depend on fractional values), and the two
  `%f`-rendered float options are modelled as their rendered strings.
* Context cancellation (`ctx.Done()`) is modelled by `cancelAt :
  Option Nat`: `some k` means the context becomes cancelled just before
  the loop iteration that processes line index `k`.
* A body delivered as a stream of scanner lines is a `List String`;
  `bufio.Scanner` read errors are a parameter `scanErr : Option String`
  observed at end of stream, mirroring `scanner.Err()`.
-/

namespace Llm

/-- An HTTP response as observed by the client: status code and raw body. -/
structure HttpResponse where
  statusCode : Nat
  body : String
  deriving Repr, DecidableEq

/-- Model of `strings.HasPrefix(s, prefix)` from the Go standard
library, over the character sequence of the strings. -/
def hasPrefix (s pre : String) : Bool :=
  pre.data.isPrefixOf s.data

/-- The Go slice `s[n:]` on an ASCII string: drop the first `n`
characters. -/
def charDrop (s : String) (n : Nat) : String :=
  ⟨s.data.drop n⟩

/-- Model of `strings.CutPrefix(s, prefix)` from the Go standard library:
returns `s` without the leading `prefix` and `true` when `prefix` is a
prefix of `s`, otherwise `(s, false)`. -/
def cutPrefix (s pre : String) : String × Bool :=
  if hasPrefix s pre then (charDrop s pre.length, true) else (s, false)

/-- Errors produced by the codec methods (`Encode`/`Decode`/`Embedding`).
`server msg` is `fmt.Errorf("%s", body)` on a `>= 400` status — the
`InferenceServerError` of the spec, carrying the raw body; `unmarshal`
is a `json.Unmarshal` failure on the response body. -/
inductive CodecErr where
  | server (msg : String)
  | unmarshal (msg : String)
  deriving Repr, DecidableEq

/-- `DetokenizeResponse` of llama.go: `{content}`. -/
structure DetokenizeResponse where
  content : String
  deriving Repr, DecidableEq

/-- `TokenizeResponse` of llama.go: `{tokens:[int]}`. -/
structure TokenizeResponse where
  tokens : List Int
  deriving Repr, DecidableEq

/-- `EmbeddingResponse` of llama.go: `{embedding:[float]}` (the float
vector entries are opaque to every claim; modelled as `Int`). -/
structure EmbeddingResponse where
  embedding : List Int
  deriving Repr, DecidableEq

/-- `(llm *llama) Decode(ctx, tokens)` of llama.go.  Returns the pair
(request issued?, result).  Empty token list short-circuits to `""`
with no request.  Otherwise the delivered `/detokenize` response `resp`
is read: status `>= 400` fails with the raw body; a successful
unmarshal yields the content passed through
`strings.CutPrefix(decoded.Content, "")` — the empty-string prefix
exactly as written in the source. -/
def Decode (un : String → Except String DetokenizeResponse)
    (resp : HttpResponse) (tokens : List Int) :
    Bool × Except CodecErr String :=
  if tokens.length = 0 then
    (false, .ok "")
  else if resp.statusCode ≥ 400 then
    (true, .error (.server resp.body))
  else
    match un resp.body with
    | .error e => (true, .error (.unmarshal e))
    | .ok decoded => (true, .ok (cutPrefix decoded.content "").1)

/-- `(llm *llama) Encode(ctx, prompt)` of llama.go: the delivered
`/tokenize` response is read; status `>= 400` fails with the raw body;
otherwise the unmarshalled token list is returned. -/
def Encode (un : String → Except String TokenizeResponse)
    (resp : HttpResponse) : Except CodecErr (List Int) :=
  if resp.statusCode ≥ 400 then
    .error (.server resp.body)
  else
    match un resp.body with
    | .error e => .error (.unmarshal e)
    | .ok encoded => .ok encoded.tokens

/-- `(llm *llama) Embedding(ctx, input)` of llama.go: same shape as
`Encode` against the `/embedding` endpoint. -/
def Embedding (un : String → Except String EmbeddingResponse)
    (resp : HttpResponse) : Except CodecErr (List Int) :=
  if resp.statusCode ≥ 400 then
    .error (.server resp.body)
  else
    match un resp.body with
    | .error e => .error (.unmarshal e)
    | .ok embedding => .ok embedding.embedding

/-- `Timings` of llama.go (embedded in `Prediction`); the `_ms` fields
are Go `float64` durations in milliseconds, modelled as `Int`. -/
structure Timings where
  predictedN : Int
  predictedMS : Int
  promptN : Int
  promptMS : Int
  deriving Repr, DecidableEq

/-- `Prediction` of llama.go: one unmarshalled `data:` record of the
`/completion` stream. -/
structure Prediction where
  content : String
  model : String
  prompt : String
  stop : Bool
  timings : Timings
  deriving Repr, DecidableEq

/-- `parseDurationMs` (helper of the `llm` package, outside llama.go):
converts a millisecond count into a Go `time.Duration` (nanoseconds). -/
def parseDurationMs (ms : Int) : Int :=
  ms * 1000000

/-- `api.GenerateResponse` as populated by `Predict`: either a partial
fragment (`response`, `done = false`) or the final record. -/
structure GenerateResponse where
  response : String := ""
  done : Bool := false
  context : List Int := []
  promptEvalCount : Int := 0
  promptEvalDuration : Int := 0
  evalCount : Int := 0
  evalDuration : Int := 0
  deriving Repr, DecidableEq

/-- Errors returned by `Predict`. `decode e` is the error of the opening
`llm.Decode` call returned unchanged; `server` is the `>= 400` status
path carrying the raw body; `unmarshal` wraps a bad `data:` record;
`encode e` wraps a failure of the final `llm.Encode` call; `cancelled`
is `ctx.Err()`; `scan` wraps `scanner.Err()` at end of stream. -/
inductive PredictErr where
  | decode (e : CodecErr)
  | server (msg : String)
  | unmarshal (msg : String)
  | encode (e : CodecErr)
  | cancelled
  | scan (msg : String)
  deriving Repr, DecidableEq

/-- Whether `ctx.Done()` is ready at loop iteration `i` (the iteration
about to process stream line index `i`): the context was cancelled at
some iteration `k ≤ i`. -/
def cancelledAt (cancelAt : Option Nat) (i : Nat) : Bool :=
  match cancelAt with
  | none => false
  | some k => decide (k ≤ i)

/-- The `scanner.Scan()` loop of `(llm *llama) Predict` in llama.go,
over the remaining stream lines, carrying the iteration index `i` and
the `nextContext` accumulator `acc`.  Each iteration first checks
cancellation (`select` on `ctx.Done()`), skips blank lines and lines
without the `"data: "` prefix, unmarshals the rest of a data line,
invokes the callback with the partial content, appends the content to
the accumulator, and on `stop` re-encodes the accumulator and invokes
the callback once more with the final record.  At end of stream
`scanner.Err()` decides between an error and a plain `nil` return.
Returns the sequence of callback invocations together with the result. -/
def predictLoop (unPred : String → Except String Prediction)
    (encode : String → Except CodecErr (List Int))
    (cancelAt : Option Nat) (scanErr : Option String) :
    List String → Nat → String → List GenerateResponse × Except PredictErr Unit
  | [], _, _ =>
    ([], match scanErr with
         | some e => .error (.scan e)
         | none => .ok ())
  | line :: rest, i, acc =>
    if cancelledAt cancelAt i then
      ([], .error .cancelled)
    else if line = "" then
      predictLoop unPred encode cancelAt scanErr rest (i + 1) acc
    else if hasPrefix line "data: " then
      match unPred (charDrop line 6) with
      | .error e => ([], .error (.unmarshal e))
      | .ok p =>
        let partialResp : GenerateResponse := { response := p.content }
        let acc' := acc ++ p.content
        if p.stop then
          match encode acc' with
          | .error e => ([partialResp], .error (.encode e))
          | .ok embd =>
            ([partialResp,
              { done := true
                context := embd
                promptEvalCount := p.timings.promptN
                promptEvalDuration := parseDurationMs p.timings.promptMS
                evalCount := p.timings.predictedN
                evalDuration := parseDurationMs p.timings.predictedMS }],
             .ok ())
        else
          let r := predictLoop unPred encode cancelAt scanErr rest (i + 1) acc'
          (partialResp :: r.1, r.2)
    else
      predictLoop unPred encode cancelAt scanErr rest (i + 1) acc

/-- `(llm *llama) Predict(ctx, prevContext, prompt, fn)` of llama.go.
First the prior context tokens are decoded (`llm.Decode`, given its
unmarshal oracle `unDetok` and delivered response `detokResp`); a
failure is returned unchanged with no callback invoked.  The decoded
text and the prompt seed the `nextContext` accumulator.  The delivered
`/completion` response is `status` with body `lines` (its raw form for
the error path is the lines joined by newlines, mirroring
`io.ReadAll`); a status `>= 400` fails with that body.  Otherwise the
scanner loop runs.  Returns the callback trace and the result. -/
def Predict (unDetok : String → Except String DetokenizeResponse)
    (detokResp : HttpResponse) (prevContext : List Int) (prompt : String)
    (status : Nat) (lines : List String)
    (unPred : String → Except String Prediction)
    (encode : String → Except CodecErr (List Int))
    (cancelAt : Option Nat) (scanErr : Option String) :
    List GenerateResponse × Except PredictErr Unit :=
  match (Decode unDetok detokResp prevContext).2 with
  | .error e => ([], .error (.decode e))
  | .ok prevConvo =>
    if status ≥ 400 then
      ([], .error (.server (String.intercalate "\n" lines)))
    else
      predictLoop unPred encode cancelAt scanErr lines 0 (prevConvo ++ prompt)

/-- `api.Options` restricted to the fields `newLlama` reads when it
builds the subprocess argument vector.  The two `%f`-rendered `float32`
rope options are modelled as their rendered strings; `numGPU` is the
caller-supplied GPU layer count (present in `api.Options`, read by the
commented-out body of `NumGPU` only). -/
structure Options where
  numCtx : Int
  ropeFrequencyBase : String
  ropeFrequencyScale : String
  numBatch : Int
  numGPU : Int
  numGQA : Int
  numThread : Int
  f16KV : Bool
  useMLock : Bool
  useMMap : Bool
  useNUMA : Bool
  deriving Repr, DecidableEq

/-- `NumGPU(opts)` of llama.go: the live body is the single statement
`return 48` (the VRAM heuristic below it is commented out). -/
def NumGPU (_opts : Options) : Int :=
  48

/-- The `params` slice assembled by `newLlama` before the retry loop:
the fixed flags, then the conditional `--gqa`, `--lora`, `--threads`,
`--memory-f32`, `--mlock`, `--no-mmap` and `--numa` segments, in source
order. -/
def buildParams (model : String) (adapters : List String) (opts : Options) :
    List String :=
  ["--model", model,
   "--ctx-size", toString opts.numCtx,
   "--rope-freq-base", opts.ropeFrequencyBase,
   "--rope-freq-scale", opts.ropeFrequencyScale,
   "--batch-size", toString opts.numBatch,
   "--n-gpu-layers", toString (NumGPU opts),
   "--embedding"]
  ++ (if opts.numGQA > 0 then ["--gqa", toString opts.numGQA] else [])
  ++ (match adapters with
      | a :: _ => ["--lora", a]
      | [] => [])
  ++ (if opts.numThread > 0 then ["--threads", toString opts.numThread] else [])
  ++ (if !opts.f16KV then ["--memory-f32"] else [])
  ++ (if opts.useMLock then ["--mlock"] else [])
  ++ (if !opts.useMMap then ["--no-mmap"] else [])
  ++ (if opts.useNUMA then ["--numa"] else [])

/-- `rand.Intn(65535-49152) + 49152` for attempt number `tryIdx`, where
`randVals tryIdx` models that draw of the process-wide PRNG as an
arbitrary natural number and `% (65535 - 49152)` is the semantics of
`rand.Intn`. -/
def attemptPort (randVals : Nat → Nat) (tryIdx : Nat) : Nat :=
  randVals tryIdx % (65535 - 49152) + 49152

/-- The argument vector handed to `exec.CommandContext` for one spawn:
`append(params, "--port", strconv.Itoa(port))`. -/
def spawnArgs (model : String) (adapters : List String) (opts : Options)
    (port : Nat) : List String :=
  buildParams model adapters opts ++ ["--port", toString port]

/-- Errors returned by `newLlama`.  `statModel`/`statRunner` are the
`os.Stat` failures on the model and runner paths; `tooManyAdapters` is
the multi-LoRA rejection; `exhausted` is
`fmt.Errorf("max retry exceeded starting llama.cpp")`. -/
inductive StartErr where
  | statModel
  | statRunner
  | tooManyAdapters
  | exhausted
  deriving Repr, DecidableEq

/-- The `for try := 0; try < 3; try++` retry loop of `newLlama`,
recursing on the remaining attempt budget with `tryIdx` counting up.
Per attempt: draw a port, spawn (`spawnOk tryIdx` models whether
`cmd.Start()` succeeds) and health-poll (`healthOk tryIdx` models whether
`waitForServer` returns nil within its 45 s / 200 ms poll); on success
return that attempt's port (the ready process's listen port), otherwise
close the process and retry.  Budget exhausted yields the max-retry
error. -/
def startAttempts (spawnOk healthOk : Nat → Bool) (randVals : Nat → Nat) :
    Nat → Nat → Except StartErr Nat
  | 0, _ => .error .exhausted
  | fuel + 1, tryIdx =>
    if spawnOk tryIdx then
      if healthOk tryIdx then
        .ok (attemptPort randVals tryIdx)
      else
        startAttempts spawnOk healthOk randVals fuel (tryIdx + 1)
    else
      startAttempts spawnOk healthOk randVals fuel (tryIdx + 1)

/-- `newLlama(model, adapters, runner, opts)` of llama.go:
validate the model path, the runner path and the adapter count
(`modelExists`/`runnerExists` model the two `os.Stat` probes), then run
the 3-attempt retry loop.  On success the returned value is the ready
process's port. -/
def newLlama (modelExists runnerExists : Bool) (adapters : List String)
    (spawnOk healthOk : Nat → Bool) (randVals : Nat → Nat) :
    Except StartErr Nat :=
  if !modelExists then .error .statModel
  else if !runnerExists then .error .statRunner
  else if adapters.length > 1 then .error .tooManyAdapters
  else startAttempts spawnOk healthOk randVals 3 0

/-- The value `Predict` returns at end of stream (the code after the
scanner loop): `scanner.Err()` if non-nil, otherwise plain `nil`. -/
def eofResult (scanErr : Option String) : Except PredictErr Unit :=
  match scanErr with
  | some e => .error (.scan e)
  | none => .ok ()

/-- A stream line that does not terminate the scanner loop: blank,
lacking the `"data: "` prefix, or a data line whose record unmarshals
successfully with the stop flag unset. -/
def NonTerminalLine (unPred : String → Except String Prediction)
    (line : String) : Prop :=
  line = "" ∨ hasPrefix line "data: " = false ∨
    ∃ p, unPred (charDrop line 6) = .ok p ∧ p.stop = false

/-! ### Helper lemmas about the scanner loop -/

/-- Running the loop with no cancellation over nonterminal lines only
reaches end of stream with the `scanner.Err()` outcome, and every
emitted callback is partial. -/
theorem predictLoop_no_stop (unPred : String → Except String Prediction)
    (encode : String → Except CodecErr (List Int)) (scanErr : Option String) :
    ∀ (lines : List String) (i : Nat) (acc : String),
      (∀ l ∈ lines, NonTerminalLine unPred l) →
      (predictLoop unPred encode none scanErr lines i acc).2 = eofResult scanErr ∧
      ∀ r ∈ (predictLoop unPred encode none scanErr lines i acc).1,
        r.done = false := by
  intro lines
  induction lines with
  | nil =>
    intro i acc _
    exact ⟨rfl, by simp [predictLoop]⟩
  | cons line rest ih =>
    intro i acc hnt
    have hline := hnt line (List.mem_cons_self _ _)
    have hrest : ∀ l ∈ rest, NonTerminalLine unPred l :=
      fun l hl => hnt l (List.mem_cons_of_mem _ hl)
    by_cases h1 : line = ""
    · simpa [predictLoop, cancelledAt, h1] using ih (i + 1) acc hrest
    · by_cases h2 : hasPrefix line "data: " = true
      · rcases hline with h1' | h2' | ⟨p, hup, hstop⟩
        · exact absurd h1' h1
        · rw [h2] at h2'
          cases h2'
        · have hrec := ih (i + 1) (acc ++ p.content) hrest
          refine ⟨?_, ?_⟩
          · simpa [predictLoop, cancelledAt, h1, h2, hup, hstop] using hrec.1
          · intro r hr
            simp only [predictLoop, cancelledAt, h1, h2, hup, hstop] at hr
            simp at hr
            rcases hr with hr | hr
            · rw [hr]
            · exact hrec.2 r hr
      · simpa [predictLoop, cancelledAt, h1, h2] using ih (i + 1) acc hrest

/-- Shape of any loop run: either every callback is partial, or the
trace is a block of partials followed by one final `done` callback and
the loop returned successfully. -/
theorem predictLoop_shape (unPred : String → Except String Prediction)
    (encode : String → Except CodecErr (List Int))
    (cancelAt : Option Nat) (scanErr : Option String) :
    ∀ (lines : List String) (i : Nat) (acc : String),
      (∀ r ∈ (predictLoop unPred encode cancelAt scanErr lines i acc).1,
        r.done = false) ∨
      (∃ ps d, (predictLoop unPred encode cancelAt scanErr lines i acc).1 =
          ps ++ [d] ∧ (∀ r ∈ ps, r.done = false) ∧ d.done = true ∧
        (predictLoop unPred encode cancelAt scanErr lines i acc).2 = .ok ()) := by
  intro lines
  induction lines with
  | nil =>
    intro i acc
    left
    simp [predictLoop]
  | cons line rest ih =>
    intro i acc
    by_cases hc : cancelledAt cancelAt i = true
    · left
      simp [predictLoop, hc]
    · by_cases h1 : line = ""
      · simpa [predictLoop, hc, h1] using ih (i + 1) acc
      · by_cases h2 : hasPrefix line "data: " = true
        · rcases hu : unPred (charDrop line 6) with e | p
          · left
            simp [predictLoop, hc, h1, h2, hu]
          · by_cases hs : p.stop = true
            · rcases he : encode (acc ++ p.content) with e' | embd
              · left
                simp [predictLoop, hc, h1, h2, hu, hs, he]
              · have hstep : predictLoop unPred encode cancelAt scanErr
                    (line :: rest) i acc =
                    ([{ response := p.content },
                      { done := true
                        context := embd
                        promptEvalCount := p.timings.promptN
                        promptEvalDuration := parseDurationMs p.timings.promptMS
                        evalCount := p.timings.predictedN
                        evalDuration := parseDurationMs p.timings.predictedMS }],
                     .ok ()) := by
                  simp [predictLoop, hc, h1, h2, hu, hs, he]
                right
                refine ⟨[{ response := p.content }],
                  { done := true
                    context := embd
                    promptEvalCount := p.timings.promptN
                    promptEvalDuration := parseDurationMs p.timings.promptMS
                    evalCount := p.timings.predictedN
                    evalDuration := parseDurationMs p.timings.predictedMS },
                  ?_, ?_, rfl, ?_⟩
                · rw [hstep]
                  rfl
                · intro r hr
                  rcases List.mem_singleton.mp hr with rfl
                  rfl
                · rw [hstep]
            · have hstep : predictLoop unPred encode cancelAt scanErr
                  (line :: rest) i acc =
                  ({ response := p.content } ::
                    (predictLoop unPred encode cancelAt scanErr rest (i + 1)
                      (acc ++ p.content)).1,
                   (predictLoop unPred encode cancelAt scanErr rest (i + 1)
                      (acc ++ p.content)).2) := by
                simp [predictLoop, hc, h1, h2, hu, hs]
              rcases ih (i + 1) (acc ++ p.content) with hall | ⟨ps, d, htr, hps, hd, hok⟩
              · left
                intro r hr
                rw [hstep] at hr
                rcases List.mem_cons.mp hr with hr | hr
                · rw [hr]
                · exact hall r hr
              · right
                refine ⟨{ response := p.content } :: ps, d, ?_, ?_, hd, ?_⟩
                · rw [hstep]
                  simp [htr]
                · intro r hr
                  rcases List.mem_cons.mp hr with hr | hr
                  · rw [hr]
                  · exact hps r hr
                · rw [hstep]
                  exact hok
        · simpa [predictLoop, hc, h1, h2] using ih (i + 1) acc

/-- If the context is cancelled at index `k` and the first `k` lines
are all nonterminal while the stream still continues past them, the
loop returns the cancellation error. -/
theorem predictLoop_cancel (unPred : String → Except String Prediction)
    (encode : String → Except CodecErr (List Int)) (scanErr : Option String)
    (k : Nat) :
    ∀ (pre rest : List String) (i : Nat) (acc : String),
      (∀ l ∈ pre, NonTerminalLine unPred l) →
      rest ≠ [] →
      i + pre.length = k →
      (predictLoop unPred encode (some k) scanErr (pre ++ rest) i acc).2 =
        .error .cancelled := by
  intro pre
  induction pre with
  | nil =>
    intro rest i acc _ hne hk
    rcases rest with _ | ⟨r, rs⟩
    · exact absurd rfl hne
    · have hki : k ≤ i := by simpa using hk.ge
      simp [predictLoop, cancelledAt, hki]
  | cons l pre' ih =>
    intro rest i acc hnt hne hk
    have hl := hnt l (List.mem_cons_self _ _)
    have hpre' : ∀ x ∈ pre', NonTerminalLine unPred x :=
      fun x hx => hnt x (List.mem_cons_of_mem _ hx)
    have hki : ¬ (k ≤ i) := by
      simp only [List.length_cons] at hk
      omega
    have hk' : (i + 1) + pre'.length = k := by
      simp only [List.length_cons] at hk
      omega
    by_cases h1 : l = ""
    · simpa [predictLoop, cancelledAt, hki, h1] using
        ih rest (i + 1) acc hpre' hne hk'
    · by_cases h2 : hasPrefix l "data: " = true
      · rcases hl with h1' | h2' | ⟨p, hup, hstop⟩
        · exact absurd h1' h1
        · rw [h2] at h2'
          cases h2'
        · simpa [predictLoop, cancelledAt, hki, h1, h2, hup, hstop] using
            ih rest (i + 1) (acc ++ p.content) hpre' hne hk'
      · simpa [predictLoop, cancelledAt, hki, h1, h2] using
          ih rest (i + 1) acc hpre' hne hk'

/-! ### Claims -/

/-- **C8**: `Decode` applied to an empty token sequence returns the
empty string immediately without issuing any network request, for every
unmarshal oracle and every delivered response. -/
theorem C8_decode_empty_short_circuit
    (un : String → Except String DetokenizeResponse) (resp : HttpResponse) :
    Decode un resp [] = (false, .ok "") := by
  rfl

/-- **C9**: `NumGPU` returns 48 for every options value, so the spawned
subprocess's argument vector always contains `--n-gpu-layers` followed
by `48` (at the fixed positions 10 and 11), regardless of the
caller-supplied GPU layer count in the options. -/
theorem C9_numgpu_hardcoded (model : String) (adapters : List String)
    (opts : Options) (port : Nat) :
    NumGPU opts = 48 ∧
    (spawnArgs model adapters opts port)[10]? = some "--n-gpu-layers" ∧
    (spawnArgs model adapters opts port)[11]? = some "48" := by
  refine ⟨rfl, rfl, rfl⟩

/-- **C3** (code bug evidence): `Decode` does **not** strip the
documented leading-whitespace artifact.  With a detokenize response
whose content is `" hello"` (leading space), the returned string is
`" hello"` with the leading whitespace intact, because the source calls
`strings.CutPrefix(decoded.Content, "")` — cutting the empty prefix, a
no-op — although its own comment says "decoded content contains a
leading whitespace" that is to be removed. -/
theorem C3_leading_whitespace_not_stripped :
    Decode (fun _ => .ok ⟨" hello"⟩) ⟨200, "resp"⟩ [1] =
      (true, .ok " hello") := by
  rfl

/-- **C10**: if decoding the prior context tokens fails at the start of
`Predict`, `Predict` returns that error unchanged and the callback
trace is empty — no partial or final result is emitted. -/
theorem C10_decode_failure_no_callback
    (unDetok : String → Except String DetokenizeResponse)
    (detokResp : HttpResponse) (prevContext : List Int) (prompt : String)
    (status : Nat) (lines : List String)
    (unPred : String → Except String Prediction)
    (encode : String → Except CodecErr (List Int))
    (cancelAt : Option Nat) (scanErr : Option String) (e : CodecErr)
    (hdec : (Decode unDetok detokResp prevContext).2 = .error e) :
    Predict unDetok detokResp prevContext prompt status lines unPred encode
        cancelAt scanErr = ([], .error (.decode e)) := by
  unfold Predict
  rcases h : (Decode unDetok detokResp prevContext).2 with e' | s
  · rw [h] at hdec
    cases hdec
    rfl
  · rw [h] at hdec
    cases hdec

/-- **C10 witness**: a detokenize response with status 500 and body
`"bad"` on nonempty prior context makes `Predict` return that decode
error with an empty callback trace. -/
theorem C10_decode_failure_no_callback_witness :
    Predict (fun _ => .ok ⟨"x"⟩) ⟨500, "bad"⟩ [1] "Hello" 200 ["data: A"]
        (fun _ => .error "u") (fun _ => .error (.server "")) none none =
      ([], .error (.decode (.server "bad"))) :=
  C10_decode_failure_no_callback (fun _ => .ok ⟨"x"⟩) ⟨500, "bad"⟩ [1]
    "Hello" 200 ["data: A"] (fun _ => .error "u")
    (fun _ => .error (.server "")) none none (.server "bad") rfl

/-- **C1** (counterexample): a completion stream that ends (EOF) without
any stop-flagged record does **not** make `Predict` return an
`InferenceServerError` — with an empty stream, empty prior context and
no scanner error, `Predict` returns plain success. -/
theorem C1_counterexample_eof_silent_success :
    Predict (fun _ => .ok ⟨""⟩) ⟨200, ""⟩ [] "Hello" 200 []
      (fun _ => .error "u") (fun _ => .error (.server "e")) none none =
      ([], .ok ()) := by
  rfl

/-- **C1** (amended): if the stream ends (EOF) without any stop-flagged
record and the scanner reports no read error, `Predict` returns
success (`nil`), not an error; no `done=true` callback is emitted.
Only a scanner read error produces an error on this path. -/
theorem C1_amended_eof_without_stop_succeeds
    (unDetok : String → Except String DetokenizeResponse)
    (detokResp : HttpResponse) (prevContext : List Int) (prompt : String)
    (status : Nat) (lines : List String)
    (unPred : String → Except String Prediction)
    (encode : String → Except CodecErr (List Int)) (s : String)
    (hdec : (Decode unDetok detokResp prevContext).2 = .ok s)
    (hstat : status < 400)
    (hlines : ∀ l ∈ lines, NonTerminalLine unPred l) :
    (Predict unDetok detokResp prevContext prompt status lines unPred encode
        none none).2 = .ok () ∧
    ∀ r ∈ (Predict unDetok detokResp prevContext prompt status lines unPred
        encode none none).1, r.done = false := by
  have hs : ¬ (status ≥ 400) := by omega
  unfold Predict
  rw [hdec]
  simp only [if_neg hs]
  exact predictLoop_no_stop unPred encode none lines 0 (s ++ prompt) hlines

/-- **C1 witness**: concrete run of the amended statement — a stream of
one non-`data:` line and a clean EOF yields success with only partial
callbacks. -/
theorem C1_amended_eof_without_stop_succeeds_witness :
    (Predict (fun _ => .ok ⟨""⟩) ⟨200, ""⟩ [] "Hello" 200 ["ping"]
        (fun _ => .error "u") (fun _ => .error (.server "e")) none none).2 =
      .ok () ∧
    ∀ r ∈ (Predict (fun _ => .ok ⟨""⟩) ⟨200, ""⟩ [] "Hello" 200 ["ping"]
        (fun _ => .error "u") (fun _ => .error (.server "e")) none none).1,
      r.done = false :=
  C1_amended_eof_without_stop_succeeds (fun _ => .ok ⟨""⟩) ⟨200, ""⟩ []
    "Hello" 200 ["ping"] (fun _ => .error "u")
    (fun _ => .error (.server "e")) "" rfl (by omega)
    (by
      intro l hl
      rcases List.mem_singleton.mp hl with rfl
      exact Or.inr (Or.inl (by decide)))

/-- **C4**: if the caller's context is cancelled (at line index `k`, the
length of the already-delivered nonterminal prefix) before any
stop-flagged record is observed while the stream is still delivering,
`Predict` returns the cancellation error and never invokes the callback
with a final `done=true` result. -/
theorem C4_cancellation_before_stop
    (unDetok : String → Except String DetokenizeResponse)
    (detokResp : HttpResponse) (prevContext : List Int) (prompt : String)
    (status : Nat) (unPred : String → Except String Prediction)
    (encode : String → Except CodecErr (List Int)) (scanErr : Option String)
    (pre rest : List String) (s : String)
    (hdec : (Decode unDetok detokResp prevContext).2 = .ok s)
    (hstat : status < 400)
    (hpre : ∀ l ∈ pre, NonTerminalLine unPred l)
    (hne : rest ≠ []) :
    (Predict unDetok detokResp prevContext prompt status (pre ++ rest) unPred
        encode (some pre.length) scanErr).2 = .error .cancelled ∧
    ∀ r ∈ (Predict unDetok detokResp prevContext prompt status (pre ++ rest)
        unPred encode (some pre.length) scanErr).1, r.done = false := by
  have hs : ¬ (status ≥ 400) := by omega
  unfold Predict
  rw [hdec]
  simp only [if_neg hs]
  have hcancel := predictLoop_cancel unPred encode scanErr pre.length pre rest
    0 (s ++ prompt) hpre hne (by omega)
  refine ⟨hcancel, ?_⟩
  rcases predictLoop_shape unPred encode (some pre.length) scanErr (pre ++ rest)
      0 (s ++ prompt) with hall | ⟨ps, d, _, _, _, hok⟩
  · exact hall
  · rw [hcancel] at hok
    cases hok

/-- **C4 witness**: one nonterminal heartbeat line delivered, context
cancelled at index 1 while a data line is still pending — `Predict`
returns the cancellation error and no callback is final. -/
theorem C4_cancellation_before_stop_witness :
    (Predict (fun _ => .ok ⟨""⟩) ⟨200, ""⟩ [] "Hi" 200 ["hb", "data: S"]
        (fun _ => .error "u") (fun _ => .error (.server "e"))
        (some 1) none).2 = .error .cancelled ∧
    ∀ r ∈ (Predict (fun _ => .ok ⟨""⟩) ⟨200, ""⟩ [] "Hi" 200 ["hb", "data: S"]
        (fun _ => .error "u") (fun _ => .error (.server "e"))
        (some 1) none).1, r.done = false :=
  C4_cancellation_before_stop (fun _ => .ok ⟨""⟩) ⟨200, ""⟩ [] "Hi" 200
    (fun _ => .error "u") (fun _ => .error (.server "e")) none
    ["hb"] ["data: S"] "" rfl (by omega)
    (by
      intro l hl
      rcases List.mem_singleton.mp hl with rfl
      exact Or.inr (Or.inl (by decide)))
    (by simp)

/-- **C5** (counterexample): a successful `Predict` call need not invoke
the callback with `done=true` at all — a stream holding one non-stop
fragment followed by a clean EOF returns success after a single partial
callback. -/
theorem C5_counterexample_success_without_done :
    Predict (fun _ => .ok ⟨""⟩) ⟨200, ""⟩ [] "Hi" 200 ["data: F"]
      (fun s => if s = "F" then
          .ok ⟨"frag", "", "", false, ⟨0, 0, 0, 0⟩⟩
        else .error "bad")
      (fun _ => .ok []) none none =
      ([{ response := "frag" }], .ok ()) := by
  rfl

/-- **C5** (amended): in every `Predict` call, the callback is invoked
with `done=true` at most once, and only as the last invocation; it is
never invoked with `done=true` twice nor followed by further
callbacks.  (A successful call may also finish with no `done=true`
invocation, when the stream ends cleanly without a stop record.) -/
theorem C5_amended_done_at_most_once_and_last
    (unDetok : String → Except String DetokenizeResponse)
    (detokResp : HttpResponse) (prevContext : List Int) (prompt : String)
    (status : Nat) (lines : List String)
    (unPred : String → Except String Prediction)
    (encode : String → Except CodecErr (List Int))
    (cancelAt : Option Nat) (scanErr : Option String) :
    (∀ r ∈ (Predict unDetok detokResp prevContext prompt status lines unPred
        encode cancelAt scanErr).1.dropLast, r.done = false) ∧
    (Predict unDetok detokResp prevContext prompt status lines unPred encode
        cancelAt scanErr).1.countP (fun r => r.done) ≤ 1 := by
  unfold Predict
  rcases hd : (Decode unDetok detokResp prevContext).2 with e | s
  · simp
  · by_cases hs : status ≥ 400
    · simp [hs]
    · simp only [if_neg hs]
      show (∀ r ∈ (predictLoop unPred encode cancelAt scanErr lines 0
          (s ++ prompt)).1.dropLast, r.done = false) ∧
        (predictLoop unPred encode cancelAt scanErr lines 0
          (s ++ prompt)).1.countP (fun r => r.done) ≤ 1
      rcases predictLoop_shape unPred encode cancelAt scanErr lines 0
          (s ++ prompt) with hall | ⟨ps, d, htr, hps, hd', _⟩
      · constructor
        · intro r hr
          exact hall r (List.dropLast_subset _ hr)
        · have : (predictLoop unPred encode cancelAt scanErr lines 0
              (s ++ prompt)).1.countP (fun r => r.done) = 0 :=
            List.countP_eq_zero.mpr (fun r hr => by simp [hall r hr])
          omega
      · rw [htr]
        constructor
        · intro r hr
          rw [List.dropLast_concat] at hr
          exact hps r hr
        · rw [List.countP_append]
          have hzero : ps.countP (fun r => r.done) = 0 :=
            List.countP_eq_zero.mpr (fun r hr => by simp [hps r hr])
          simp [hzero, hd']

/-- **C7** (counterexample): a non-2xx response does **not** always
fail — `Encode` treats a 302 response as success and parses its body,
because the source's error check is `resp.StatusCode >= 400`, not
"non-2xx". -/
theorem C7_counterexample_3xx_not_error :
    Encode (fun _ => .ok ⟨[1, 2]⟩) ⟨302, "redirect"⟩ = .ok [1, 2] := by
  rfl

/-- **C7** (amended): for every HTTP response with status code `>= 400`
received during encode, decode (on a nonempty token list), embed, or
predict, the call fails with an `InferenceServerError` carrying the raw
server-provided response body as the error message; statuses below 400
(2xx and 3xx alike) are not converted to errors. -/
theorem C7_amended_status_ge_400_is_server_error (status : Nat) (body : String)
    (h : 400 ≤ status) :
    (∀ un, Encode un ⟨status, body⟩ = .error (.server body)) ∧
    (∀ un tokens, tokens ≠ ([] : List Int) →
      (Decode un ⟨status, body⟩ tokens).2 = .error (.server body)) ∧
    (∀ un, Embedding un ⟨status, body⟩ = .error (.server body)) ∧
    (∀ unDetok detokResp prevContext prompt lines unPred encode cancelAt
        scanErr s, (Decode unDetok detokResp prevContext).2 = .ok s →
      Predict unDetok detokResp prevContext prompt status lines unPred encode
          cancelAt scanErr =
        ([], .error (.server (String.intercalate "\n" lines)))) := by
  refine ⟨?_, ?_, ?_, ?_⟩
  · intro un
    simp [Encode, h]
  · intro un tokens htok
    have hlen : ¬ tokens.length = 0 := by
      simpa using htok
    simp [Decode, hlen, h]
  · intro un
    simp [Embedding, h]
  · intro unDetok detokResp prevContext prompt lines unPred encode cancelAt
      scanErr s hdec
    unfold Predict
    rw [hdec]
    simp [h]

/-- **C7 witness**: a 500 response with body `"oops"` fails each codec
call with exactly that body as the error, and a 500 completion response
fails `Predict` with the raw completion body. -/
theorem C7_amended_status_ge_400_is_server_error_witness :
    Encode (fun _ => .error "u") ⟨500, "oops"⟩ = .error (.server "oops") ∧
    (Decode (fun _ => .error "u") ⟨500, "oops"⟩ [1]).2 =
      .error (.server "oops") ∧
    Embedding (fun _ => .error "u") ⟨500, "oops"⟩ = .error (.server "oops") ∧
    Predict (fun _ => .ok ⟨""⟩) ⟨200, ""⟩ [] "Hi" 500 ["err line"]
        (fun _ => .error "u") (fun _ => .error (.server "")) none none =
      ([], .error (.server (String.intercalate "\n" ["err line"]))) := by
  have h := C7_amended_status_ge_400_is_server_error 500 "oops" (by omega)
  have h' := C7_amended_status_ge_400_is_server_error 500 "x" (by omega)
  refine ⟨h.1 _, h.2.1 _ [1] (by simp), h.2.2.1 _, ?_⟩
  exact h'.2.2.2 (fun _ => .ok ⟨""⟩) ⟨200, ""⟩ [] "Hi" ["err line"]
    (fun _ => .error "u") (fun _ => .error (.server "")) none none "" rfl

/-- **C2** (counterexample): with two fragment records ("Hi", " there")
followed by one stop record (promptTokens = 3, generatedTokens = 2),
the callback is invoked **four** times, not three: every data record —
the stop record included — first triggers a partial callback with its
content before the stop flag is checked, so a third partial callback
(here with the stop record's empty content) precedes the final one. -/
theorem C2_counterexample_stop_record_also_partial :
    (Predict (fun _ => .ok ⟨""⟩) ⟨200, ""⟩ [] "Hello" 200
        ["data: A", "data: B", "data: C"]
        (fun s => if s = "A" then .ok ⟨"Hi", "", "", false, ⟨0, 0, 0, 0⟩⟩
          else if s = "B" then .ok ⟨" there", "", "", false, ⟨0, 0, 0, 0⟩⟩
          else if s = "C" then .ok ⟨"", "", "", true, ⟨2, 40, 3, 25⟩⟩
          else .error "bad")
        (fun _ => .ok [11, 12, 13, 14, 15]) none none).1 =
      [{ response := "Hi" }, { response := " there" }, { response := "" },
       { done := true, context := [11, 12, 13, 14, 15], promptEvalCount := 3,
         promptEvalDuration := parseDurationMs 25, evalCount := 2,
         evalDuration := parseDurationMs 40 }] := by
  rfl

/-- **C2** (amended): for a `Predict` call (empty prior context) whose
stream delivers exactly two fragment data records followed by one stop
data record, the callback is invoked once per data record with a
partial (non-done) result — three times, the third carrying the stop
record's content delta — and then exactly once with the final
`done=true` result carrying the updated context tokens; no other
callback invocations occur. -/
theorem C2_amended_three_partials_then_final
    (unDetok : String → Except String DetokenizeResponse)
    (detokResp : HttpResponse) (prompt : String) (status : Nat)
    (l1 l2 l3 : String) (p1 p2 p3 : Prediction) (embd : List Int)
    (unPred : String → Except String Prediction)
    (encode : String → Except CodecErr (List Int))
    (hlt : status < 400)
    (h1 : hasPrefix l1 "data: " = true)
    (hu1 : unPred (charDrop l1 6) = .ok p1) (hs1 : p1.stop = false)
    (h2 : hasPrefix l2 "data: " = true)
    (hu2 : unPred (charDrop l2 6) = .ok p2) (hs2 : p2.stop = false)
    (h3 : hasPrefix l3 "data: " = true)
    (hu3 : unPred (charDrop l3 6) = .ok p3) (hs3 : p3.stop = true)
    (henc : encode ((("" ++ prompt ++ p1.content) ++ p2.content) ++ p3.content)
      = .ok embd) :
    Predict unDetok detokResp [] prompt status [l1, l2, l3] unPred encode
        none none =
      ([{ response := p1.content }, { response := p2.content },
        { response := p3.content },
        { done := true
          context := embd
          promptEvalCount := p3.timings.promptN
          promptEvalDuration := parseDurationMs p3.timings.promptMS
          evalCount := p3.timings.predictedN
          evalDuration := parseDurationMs p3.timings.predictedMS }], .ok ()) := by
  have hge : ¬ (status ≥ 400) := by omega
  have hne1 : ¬ l1 = "" := by
    intro heq
    rw [heq] at h1
    exact absurd h1 (by decide)
  have hne2 : ¬ l2 = "" := by
    intro heq
    rw [heq] at h2
    exact absurd h2 (by decide)
  have hne3 : ¬ l3 = "" := by
    intro heq
    rw [heq] at h3
    exact absurd h3 (by decide)
  unfold Predict
  simp only [show (Decode unDetok detokResp []).2 = .ok "" from rfl, if_neg hge,
    predictLoop, cancelledAt, hne1, h1, hu1, hs1, hne2, h2, hu2, hs2, hne3, h3,
    hu3, hs3, henc]
  simp [henc]

/-- **C2 witness**: the concrete scenario — prompt "Hello", fragments
"Hi" and " there", then a stop record with promptTokens = 3 and
generatedTokens = 2 — produces exactly three partial callbacks followed
by the final callback with the re-encoded context. -/
theorem C2_amended_three_partials_then_final_witness :
    Predict (fun _ => .ok ⟨""⟩) ⟨200, ""⟩ [] "Hello" 200
        ["data: X", "data: Y", "data: Z"]
        (fun s => if s = "X" then .ok ⟨"Hi", "", "", false, ⟨0, 0, 0, 0⟩⟩
          else if s = "Y" then .ok ⟨" there", "", "", false, ⟨0, 0, 0, 0⟩⟩
          else if s = "Z" then .ok ⟨"", "", "", true, ⟨2, 40, 3, 25⟩⟩
          else .error "bad")
        (fun _ => .ok [21, 22, 23, 24, 25]) none none =
      ([{ response := "Hi" }, { response := " there" }, { response := "" },
        { done := true, context := [21, 22, 23, 24, 25], promptEvalCount := 3,
          promptEvalDuration := parseDurationMs 25, evalCount := 2,
          evalDuration := parseDurationMs 40 }], .ok ()) :=
  C2_amended_three_partials_then_final (fun _ => .ok ⟨""⟩) ⟨200, ""⟩ "Hello"
    200 "data: X" "data: Y" "data: Z"
    ⟨"Hi", "", "", false, ⟨0, 0, 0, 0⟩⟩
    ⟨" there", "", "", false, ⟨0, 0, 0, 0⟩⟩
    ⟨"", "", "", true, ⟨2, 40, 3, 25⟩⟩
    [21, 22, 23, 24, 25]
    (fun s => if s = "X" then .ok ⟨"Hi", "", "", false, ⟨0, 0, 0, 0⟩⟩
      else if s = "Y" then .ok ⟨" there", "", "", false, ⟨0, 0, 0, 0⟩⟩
      else if s = "Z" then .ok ⟨"", "", "", true, ⟨2, 40, 3, 25⟩⟩
      else .error "bad")
    (fun _ => .ok [21, 22, 23, 24, 25])
    (by omega) (by decide) rfl rfl (by decide) rfl rfl (by decide) rfl rfl rfl

/-- **C6**: `newLlama` (with existing model and runner paths and at most
one adapter) makes at most 3 spawn attempts, each with a pseudo-random
port in the half-open range [49152, 65535); if every one of the 3
attempts fails (spawn failure or health-check timeout) it returns the
startup-exhausted error, and if some attempt's health probe succeeds it
returns the ready process listening on that attempt's port. -/
theorem C6_start_retry_loop (adapters : List String)
    (spawnOk healthOk : Nat → Bool) (randVals : Nat → Nat)
    (had : adapters.length ≤ 1) :
    (∀ i, 49152 ≤ attemptPort randVals i ∧ attemptPort randVals i < 65535) ∧
    ((∀ i, i < 3 → (spawnOk i = false ∨ healthOk i = false)) →
      newLlama true true adapters spawnOk healthOk randVals =
        .error .exhausted) ∧
    ((∃ i, i < 3 ∧ spawnOk i = true ∧ healthOk i = true) →
      ∃ i, i < 3 ∧ spawnOk i = true ∧ healthOk i = true ∧
        newLlama true true adapters spawnOk healthOk randVals =
          .ok (attemptPort randVals i)) := by
  have hlen : ¬ adapters.length > 1 := by omega
  have hnl : newLlama true true adapters spawnOk healthOk randVals =
      startAttempts spawnOk healthOk randVals 3 0 := by
    simp [newLlama, hlen]
  refine ⟨?_, ?_, ?_⟩
  · intro i
    have hm := Nat.mod_lt (randVals i) (show 0 < 65535 - 49152 by omega)
    unfold attemptPort
    omega
  · intro h
    have h0 := h 0 (by omega)
    have h1 := h 1 (by omega)
    have h2 := h 2 (by omega)
    rw [hnl]
    rcases h0 with h0 | h0 <;> rcases h1 with h1 | h1 <;>
      rcases h2 with h2 | h2 <;> simp [startAttempts, h0, h1, h2]
  · rintro ⟨i, hi, hsp, hh⟩
    by_cases c0 : spawnOk 0 = true ∧ healthOk 0 = true
    · refine ⟨0, by omega, c0.1, c0.2, ?_⟩
      rw [hnl]
      simp [startAttempts, c0.1, c0.2]
    · by_cases c1 : spawnOk 1 = true ∧ healthOk 1 = true
      · refine ⟨1, by omega, c1.1, c1.2, ?_⟩
        rw [hnl]
        rcases not_and_or.mp c0 with d0 | d0 <;>
          rw [Bool.not_eq_true] at d0 <;>
          simp [startAttempts, d0, c1.1, c1.2]
      · by_cases c2 : spawnOk 2 = true ∧ healthOk 2 = true
        · refine ⟨2, by omega, c2.1, c2.2, ?_⟩
          rw [hnl]
          rcases not_and_or.mp c0 with d0 | d0 <;>
            rcases not_and_or.mp c1 with d1 | d1 <;>
            rw [Bool.not_eq_true] at d0 d1 <;>
            simp [startAttempts, d0, d1, c2.1, c2.2]
        · exfalso
          interval_cases i
          · exact c0 ⟨hsp, hh⟩
          · exact c1 ⟨hsp, hh⟩
          · exact c2 ⟨hsp, hh⟩

/-- **C6 witness**: with every spawn succeeding but every health probe
failing, startup fails with the exhausted error; moreover every drawn
port lies in [49152, 65535). -/
theorem C6_start_retry_loop_witness :
    newLlama true true [] (fun _ => true) (fun _ => false) (fun _ => 7) =
      .error .exhausted ∧
    49152 ≤ attemptPort (fun _ => 7) 0 ∧ attemptPort (fun _ => 7) 0 < 65535 :=
  ⟨(C6_start_retry_loop [] (fun _ => true) (fun _ => false) (fun _ => 7)
      (by simp)).2.1 (fun _ _ => Or.inr rfl),
   (C6_start_retry_loop [] (fun _ => true) (fun _ => false) (fun _ => 7)
      (by simp)).1 0⟩

end Llm
